import Mathlib

/-!
Verification of the letterboxd-stats enrichment pipeline.

This file gives a shallow embedding of the core of the backend
(`app/services/tmdb_client.py`, `app/services/storage.py`,
`app/services/enrichment_worker.py`) and proves or refutes the
specified properties of the TTL cache, the cache-key derivation, the
sliding-window rate limiter, the request layer, best-match selection,
enrichment-record normalization, and the batch orchestrator's
progress accounting and error handling.

Modelling conventions:
* Python strings are `List Char`; Python `None`-able values are `Option`.
* Wall-clock time is `ℚ` (seconds); `time.sleep` advances the clock.
* Dynamically typed arguments (`title`, `tmdb_id`) are a small sum type
  `PyArg`, so the `isinstance`/truthiness guards can be stated.
* Network I/O is an oracle argument: an `HttpOutcome` value describes what
  a given HTTP attempt would observe.  State-passing functions return the
  updated client state together with the list of times at which provider
  calls were actually made.
-/

namespace Letterboxd

/-- Python strings, modelled as lists of characters. -/
abbrev PyStr := List Char

/-- ASCII lower-casing of one character, modelling `str.lower()` per character. -/
def lowerChar (c : Char) : Char :=
  if 'A' ≤ c ∧ c ≤ 'Z' then Char.ofNat (c.toNat + 32) else c

/-- Modelling Python `str.lower()`. -/
def pyLower (s : PyStr) : PyStr := s.map lowerChar

/-- Modelling Python `str.strip()`: drop whitespace from both ends. -/
def pyStrip (s : PyStr) : PyStr :=
  ((s.dropWhile Char.isWhitespace).reverse.dropWhile Char.isWhitespace).reverse

/-- A dynamically typed (Python) argument value, as passed to
`search_movie(title=...)` / `get_movie_details(tmdb_id=...)`. -/
inductive PyArg where
  | str (s : PyStr)
  | int (n : ℤ)
  | null
deriving DecidableEq

/-- Python truthiness of a `PyArg` value. -/
def PyArg.truthy : PyArg → Bool
  | .str s => !s.isEmpty
  | .int n => n != 0
  | .null => false

/-- Modelling `isinstance(x, str)`. -/
def PyArg.isStr : PyArg → Bool
  | .str _ => true
  | _ => false

/-- The guard of `search_movie` / `search_movie_async`:
the title is rejected when `not title or not isinstance(title, str)`. -/
def titleValid (t : PyArg) : Bool := t.truthy && t.isStr

/-- The guard of `get_movie_details` / `get_movie_details_async`:
the id is rejected unless `isinstance(tmdb_id, int) and tmdb_id > 0`. -/
def tmdbIdValid : PyArg → Bool
  | .int n => decide (0 < n)
  | _ => false

/-- Modelling Python `str(n)` on an integer. -/
def intStr (n : ℤ) : PyStr := (toString n).toList

/-- Modelling the f-string rendering of the `year` keyword argument in
`_get_cache_key` (`str(None) = "None"`). -/
def yearStr : Option ℤ → PyStr
  | some y => intStr y
  | none => "None".toList

/-! ## TTL cache (`_get_from_cache` / `_set_cache`) -/

/-- `CACHE_TTL = 600` seconds. -/
def CACHE_TTL : ℚ := 600

/-- The in-memory cache `{cache_key: (result, timestamp)}`, as an association
list keyed by cache key, with at most one entry per key. -/
abbrev Cache (α : Type) := List (PyStr × α × ℚ)

/-- `_get_from_cache`: return the stored value if the entry is younger than
`CACHE_TTL`; delete the entry and miss if it has expired; miss if absent.
Returns the (possibly shrunk) cache alongside the lookup result. -/
def getFromCache {α : Type} (c : Cache α) (key : PyStr) (now : ℚ) : Option α × Cache α :=
  match c.find? (fun e => decide (e.1 = key)) with
  | some e =>
      if now - e.2.2 < CACHE_TTL then (some e.2.1, c)
      else (none, c.filter (fun e2 => !decide (e2.1 = key)))
  | none => (none, c)

/-- `_set_cache`: store `value` under `key` with the current timestamp
(dict assignment replaces any previous entry for the key). -/
def setCache {α : Type} (c : Cache α) (key : PyStr) (v : α) (now : ℚ) : Cache α :=
  (key, v, now) :: c.filter (fun e2 => !decide (e2.1 = key))

/-! ## Cache keys (`_get_cache_key`) -/

/-- Lexicographic strict order on char lists, modelling the string comparison
used by Python `sorted`. -/
def strLt : PyStr → PyStr → Bool
  | [], [] => false
  | [], _ :: _ => true
  | _ :: _, [] => false
  | a :: as, b :: bs => if a < b then true else if b < a then false else strLt as bs

/-- Ordered insertion of one `(key, value)` pair, comparing by key
(keyword-argument keys are unique, so values are never compared). -/
def insertByKey (x : PyStr × PyStr) : List (PyStr × PyStr) → List (PyStr × PyStr)
  | [] => [x]
  | y :: ys => if strLt y.1 x.1 then y :: insertByKey x ys else x :: y :: ys

/-- Modelling `sorted(params.items())`. -/
def sortParams (ps : List (PyStr × PyStr)) : List (PyStr × PyStr) :=
  ps.foldr insertByKey []

/-- `_get_cache_key`:
`f"{key_type}_" + "_".join(f"{k}_{v}".lower() for k, v in sorted(params.items()))`.
Note that the argument values are lower-cased but not stripped. -/
def getCacheKey (keyType : PyStr) (ps : List (PyStr × PyStr)) : PyStr :=
  keyType ++ '_' :: List.intercalate ['_']
    ((sortParams ps).map (fun kv => pyLower (kv.1 ++ '_' :: kv.2)))

/-! ## TMDB payloads -/

/-- One TMDB search result, restricted to the fields the client reads.
A JSON key that may be missing is an `Option`. -/
structure Candidate where
  tmdbId : Option ℤ
  popularity : Option ℚ
  releaseDate : Option PyStr
deriving DecidableEq

/-- The decoded body of a 200 search response. -/
structure SearchResponse where
  results : List Candidate
deriving DecidableEq

/-- A TMDB genre object. -/
structure GenreObj where
  name : Option PyStr
deriving DecidableEq

/-- A TMDB crew member (as read by `_extract_directors`). -/
structure CrewMember where
  name : Option PyStr
  job : Option PyStr
deriving DecidableEq

/-- A TMDB cast member (as read by `_extract_cast`). -/
structure CastMember where
  name : Option PyStr
deriving DecidableEq

/-- A TMDB production country (as read by `_extract_country`). -/
structure ProdCountry where
  name : Option PyStr
deriving DecidableEq

/-- The decoded body of a 200 details response (with `append_to_response=credits`).
The `.get(..., [])`/`.get(..., {})` defaults of the extractor are folded in:
a missing list is the empty list. -/
structure Details where
  tmdbId : Option ℤ
  genres : List GenreObj
  crew : List CrewMember
  cast : List CastMember
  runtime : Option ℤ
  budget : Option ℤ
  revenue : Option ℤ
  popularity : Option ℚ
  voteAverage : Option ℚ
  originalLanguage : Option PyStr
  productionCountries : List ProdCountry
deriving DecidableEq

/-- A value stored in the client's single cache dict: `search_movie` caches a
best-match candidate, `search_movie_async` caches a raw search response, and
the details fetches cache a details response. -/
inductive CVal where
  | cand (c : Candidate)
  | srch (r : SearchResponse)
  | dets (d : Details)
deriving DecidableEq

/-! ## Client state and rate limiter (`_wait_for_rate_limit`) -/

/-- `REQUEST_LIMIT = 40`. -/
def REQUEST_LIMIT : ℕ := 40

/-- `RATE_LIMIT_WINDOW = 10` seconds. -/
def RATE_LIMIT_WINDOW : ℚ := 10

/-- The mutable state of a `TMDBClient` instance plus the wall clock.
`requestTimes` is `_request_times`; `history` is a ghost trace recording every
timestamp that was ever appended to `_request_times` (entries are appended to
both lists together and only `requestTimes` is pruned); `semAvailable` is the
number of free permits of the async `asyncio.Semaphore(10)`. -/
structure ClientState where
  cache : Cache CVal
  requestTimes : List ℚ
  history : List ℚ
  semAvailable : ℕ
  now : ℚ
deriving DecidableEq

/-- A fresh client at time `t0`. -/
def initClientState (t0 : ℚ) : ClientState :=
  { cache := [], requestTimes := [], history := [], semAvailable := 10, now := t0 }

/-- `_wait_for_rate_limit`: prune timestamps older than the window; if the
window is full, sleep until the oldest pruned timestamp leaves the window
(plus 0.1 s), re-prune, and finally record the current time.  The `[]` arm of
the inner match is unreachable (a full window is nonempty). -/
def waitForRateLimit (s : ClientState) : ClientState :=
  let cutoff := s.now - RATE_LIMIT_WINDOW
  let pruned := s.requestTimes.filter (fun u => decide (cutoff < u))
  if REQUEST_LIMIT ≤ pruned.length then
    match pruned with
    | [] =>
        { s with requestTimes := pruned ++ [s.now], history := s.history ++ [s.now] }
    | u0 :: rest =>
        let waitTime := u0 - cutoff + 1 / 10
        if 0 < waitTime then
          let now2 := s.now + waitTime
          let pruned2 := (u0 :: rest).filter (fun u => decide (now2 - RATE_LIMIT_WINDOW < u))
          { s with requestTimes := pruned2 ++ [now2], history := s.history ++ [now2],
                   now := now2 }
        else
          { s with requestTimes := (u0 :: rest) ++ [s.now], history := s.history ++ [s.now] }
  else
    { s with requestTimes := pruned ++ [s.now], history := s.history ++ [s.now] }

/-- One sequential request through the limiter: the wall clock advances by
`δ ≥ 0` (time elapsed since the previous call) and `_wait_for_rate_limit` runs. -/
def limiterStep (s : ClientState) (δ : ℚ) : ClientState :=
  waitForRateLimit { s with now := s.now + δ }

/-- A whole sequence of sequential requests, started from a fresh client. -/
def runLimiter (t0 : ℚ) (deltas : List ℚ) : ClientState :=
  deltas.foldl limiterStep (initClientState t0)

/-- The number of timestamps of `h` inside the trailing window `(t - 10, t]`. -/
def countWindow (h : List ℚ) (t : ℚ) : ℕ :=
  (h.filter (fun x => decide (t - RATE_LIMIT_WINDOW < x) && decide (x ≤ t))).length

/-! ## Request layer (`_make_request`) -/

/-- The outcome a single TMDB HTTP attempt would observe.
`α` is the decoded body type of a 200 response. -/
inductive HttpOutcome (α : Type) where
  | ok (body : α)
  | notFound
  | rateLimited
  | authRejected
  | otherError (code : ℕ)
  | timeout
  | connError
deriving DecidableEq

/-- Result of `_make_request`: the parsed body (or `None`), the new client
state, the times of the provider calls actually made, and the durations of the
`time.sleep` calls executed by the status-handling code itself. -/
structure ReqOut (α : Type) where
  result : Option α
  state : ClientState
  calls : List ℚ
  sleeps : List ℚ
deriving DecidableEq

/-- `_make_request`: wait for the rate limiter, then perform one HTTP attempt.
`outs` lists the outcome each successive attempt would observe were it made;
the code performs exactly one attempt — it consumes only the head.  A 200
returns the body; 404, 401 and other statuses return `None`; 429 sleeps one
second and returns `None` without retrying; timeouts and connection errors
return `None`. -/
def makeRequest {α : Type} (st : ClientState) (outs : List (HttpOutcome α)) : ReqOut α :=
  let st1 := waitForRateLimit st
  match outs with
  | [] => { result := none, state := st1, calls := [], sleeps := [] }
  | o :: _ =>
    let callAt := st1.now
    match o with
    | .ok b => { result := some b, state := st1, calls := [callAt], sleeps := [] }
    | .notFound => { result := none, state := st1, calls := [callAt], sleeps := [] }
    | .rateLimited =>
        { result := none, state := { st1 with now := st1.now + 1 },
          calls := [callAt], sleeps := [1] }
    | .authRejected => { result := none, state := st1, calls := [callAt], sleeps := [] }
    | .otherError _ => { result := none, state := st1, calls := [callAt], sleeps := [] }
    | .timeout => { result := none, state := st1, calls := [callAt], sleeps := [] }
    | .connError => { result := none, state := st1, calls := [callAt], sleeps := [] }

/-! ## Best-match selection (`_find_best_match`) -/

/-- `_find_best_match`: keep candidates with popularity above 1.0 (falling
back to all results if that keeps nothing); when a truthy year is given,
return the first survivor whose `release_date[:4]` equals `str(year)` if one
exists; otherwise return the first survivor.  `title` is accepted but unused,
as in the source. -/
def findBestMatch (results : List Candidate) (title : PyStr) (year : Option ℤ) :
    Option Candidate :=
  if results.isEmpty then none
  else
    let filtered0 := results.filter (fun r => decide (1 < r.popularity.getD 0))
    let filtered := if filtered0.isEmpty then results else filtered0
    match year with
    | some y =>
        if y = 0 then filtered.head?
        else
          match filtered.filter (fun r => decide ((r.releaseDate.getD []).take 4 = intStr y)) with
          | m :: _ => some m
          | [] => filtered.head?
    | none => filtered.head?

/-! ## Search and details (`search_movie`, `get_movie_details` and async variants) -/

/-- Parameter-name literal. -/
def kTitle : PyStr := "title".toList

/-- Parameter-name literal. -/
def kYear : PyStr := "year".toList

/-- Cache-key-type literal. -/
def kSearch : PyStr := "search".toList

/-- Cache-key-type literal. -/
def kDetails : PyStr := "details".toList

/-- Parameter-name literal. -/
def kTmdbId : PyStr := "tmdb_id".toList

/-- `search_movie`: validate the title, try the cache, otherwise make one
rate-limited request and cache the selected best match.  Returns the result,
the new client state, and the times of the provider calls made. -/
def searchMovie (st : ClientState) (title : PyArg) (year : Option ℤ)
    (outs : List (HttpOutcome SearchResponse)) : Option CVal × ClientState × List ℚ :=
  if !titleValid title then (none, st, [])
  else
    let titleS := match title with | .str s => s | _ => []
    let key := getCacheKey kSearch [(kTitle, titleS), (kYear, yearStr year)]
    match getFromCache st.cache key st.now with
    | (some v, c2) => (some v, { st with cache := c2 }, [])
    | (none, c2) =>
      let st2 := { st with cache := c2 }
      let req := makeRequest st2 outs
      match req.result with
      | none => (none, req.state, req.calls)
      | some resp =>
        if resp.results.isEmpty then (none, req.state, req.calls)
        else
          match findBestMatch resp.results titleS year with
          | some bm =>
              (some (CVal.cand bm),
               { req.state with
                   cache := setCache req.state.cache key (CVal.cand bm) req.state.now },
               req.calls)
          | none => (none, req.state, req.calls)

/-- `get_movie_details`: validate the id, try the cache, otherwise make one
rate-limited request and cache the full response. -/
def getMovieDetails (st : ClientState) (tmdbId : PyArg)
    (outs : List (HttpOutcome Details)) : Option CVal × ClientState × List ℚ :=
  if !tmdbIdValid tmdbId then (none, st, [])
  else
    let idN := match tmdbId with | .int n => n | _ => 0
    let key := getCacheKey kDetails [(kTmdbId, intStr idN)]
    match getFromCache st.cache key st.now with
    | (some v, c2) => (some v, { st with cache := c2 }, [])
    | (none, c2) =>
      let st2 := { st with cache := c2 }
      let req := makeRequest st2 outs
      match req.result with
      | none => (none, req.state, req.calls)
      | some resp =>
          (some (CVal.dets resp),
           { req.state with
               cache := setCache req.state.cache key (CVal.dets resp) req.state.now },
           req.calls)

/-- `search_movie_async`: validate the title, try the cache, then perform one
HTTP call guarded by the 10-permit semaphore.  The call takes `dur` seconds of
wall-clock time; a 200 response is cached raw.  `_request_times` and the
sliding window are never consulted or updated on this path. -/
def searchMovieAsync (st : ClientState) (title : PyArg) (year : Option ℤ)
    (out : HttpOutcome SearchResponse) (dur : ℚ) : Option CVal × ClientState × List ℚ :=
  if !titleValid title then (none, st, [])
  else
    let titleS := match title with | .str s => s | _ => []
    let key := getCacheKey kSearch [(kTitle, titleS), (kYear, yearStr year)]
    match getFromCache st.cache key st.now with
    | (some v, c2) => (some v, { st with cache := c2 }, [])
    | (none, c2) =>
      let st2 := { st with cache := c2, semAvailable := st.semAvailable - 1 }
      let callAt := st2.now
      let st3 := { st2 with now := st2.now + dur }
      match out with
      | .ok resp =>
          (some (CVal.srch resp),
           { st3 with cache := setCache st3.cache key (CVal.srch resp) st3.now,
                      semAvailable := st3.semAvailable + 1 },
           [callAt])
      | _ => (none, { st3 with semAvailable := st3.semAvailable + 1 }, [callAt])

/-- `get_movie_details_async`: as `search_movie_async`, for the details
endpoint, caching the raw 200 response by id. -/
def getMovieDetailsAsync (st : ClientState) (tmdbId : PyArg)
    (out : HttpOutcome Details) (dur : ℚ) : Option CVal × ClientState × List ℚ :=
  if !tmdbIdValid tmdbId then (none, st, [])
  else
    let idN := match tmdbId with | .int n => n | _ => 0
    let key := getCacheKey kDetails [(kTmdbId, intStr idN)]
    match getFromCache st.cache key st.now with
    | (some v, c2) => (some v, { st with cache := c2 }, [])
    | (none, c2) =>
      let st2 := { st with cache := c2, semAvailable := st.semAvailable - 1 }
      let callAt := st2.now
      let st3 := { st2 with now := st2.now + dur }
      match out with
      | .ok resp =>
          (some (CVal.dets resp),
           { st3 with cache := setCache st3.cache key (CVal.dets resp) st3.now,
                      semAvailable := st3.semAvailable + 1 },
           [callAt])
      | _ => (none, { st3 with semAvailable := st3.semAvailable + 1 }, [callAt])

/-- Drive a sequence of async searches one after another (each awaited before
the next starts), collecting the times of all provider calls made. -/
def asyncSearchRun (st : ClientState)
    (calls : List (PyArg × Option ℤ × HttpOutcome SearchResponse)) (dur : ℚ) :
    ClientState × List ℚ :=
  calls.foldl
    (fun acc c =>
      let r := searchMovieAsync acc.1 c.1 c.2.1 c.2.2 dur
      (r.2.1, acc.2 ++ r.2.2))
    (st, [])

/-! ## Enrichment-record extraction (`extract_enrichment_data`) -/

/-- Truthiness of an optional string (`if x.get('name')`). -/
def pyTruthyStr : Option PyStr → Bool
  | some s => !s.isEmpty
  | none => false

/-- `_extract_genres`: `[g.get('name','').strip() for g in genres if g.get('name')]`. -/
def extractGenres (gs : List GenreObj) : List PyStr :=
  (gs.filter (fun g => pyTruthyStr g.name)).map (fun g => pyStrip (g.name.getD []))

/-- The crew-role literal compared against `person.get('job')`. -/
def kDirector : PyStr := "Director".toList

/-- `_extract_directors`: named crew members whose job equals `"Director"`,
stripped, limited to the first three. -/
def extractDirectors (crew : List CrewMember) : List PyStr :=
  ((crew.filter (fun p => decide (p.job = some kDirector) && pyTruthyStr p.name)).map
    (fun p => pyStrip (p.name.getD []))).take 3

/-- `_extract_cast`: named cast members, stripped, limited to the first five. -/
def extractCast (cast : List CastMember) : List PyStr :=
  ((cast.filter (fun p => pyTruthyStr p.name)).map (fun p => pyStrip (p.name.getD []))).take 5

/-- `_extract_country`: the first production country's name, stripped;
`None` when the list is empty or the first entry has no truthy name. -/
def extractCountry : List ProdCountry → Option PyStr
  | [] => none
  | c :: _ =>
    match c.name with
    | some n => if n.isEmpty then none else some (pyStrip n)
    | none => none

/-- A field value of the enrichment dict. -/
inductive EField where
  | intF (n : ℤ)
  | ratF (q : ℚ)
  | strF (s : PyStr)
  | listF (l : List PyStr)
  | nullF
deriving DecidableEq

/-- Embed an optional integer field (`None` becomes an explicit null value). -/
def ofOptInt : Option ℤ → EField
  | some n => .intF n
  | none => .nullF

/-- Embed an optional float field. -/
def ofOptRat : Option ℚ → EField
  | some q => .ratF q
  | none => .nullF

/-- Embed an optional string field. -/
def ofOptStr : Option PyStr → EField
  | some s => .strF s
  | none => .nullF

/-- The comprehension filter of `extract_enrichment_data`:
`v is not None and (not isinstance(v, list) or len(v) > 0)`. -/
def keepField : EField → Bool
  | .nullF => false
  | .listF l => !l.isEmpty
  | _ => true

/-- Record field name. -/
def kfTmdbId : String := "tmdb_id"

/-- Record field name. -/
def kfGenres : String := "genres"

/-- Record field name. -/
def kfDirectors : String := "directors"

/-- Record field name. -/
def kfCast : String := "cast"

/-- Record field name. -/
def kfRuntime : String := "runtime"

/-- Record field name. -/
def kfBudget : String := "budget"

/-- Record field name. -/
def kfRevenue : String := "revenue"

/-- Record field name. -/
def kfPopularity : String := "popularity"

/-- Record field name. -/
def kfVoteAverage : String := "vote_average"

/-- Record field name. -/
def kfOrigLang : String := "original_language"

/-- Record field name. -/
def kfCountry : String := "country"

/-- `extract_enrichment_data`: build the eleven-field enrichment dict, then
filter out every `None` value and every empty list. -/
def extractEnrichmentData (d : Details) : List (String × EField) :=
  [(kfTmdbId, ofOptInt d.tmdbId),
   (kfGenres, EField.listF (extractGenres d.genres)),
   (kfDirectors, EField.listF (extractDirectors d.crew)),
   (kfCast, EField.listF (extractCast d.cast)),
   (kfRuntime, ofOptInt d.runtime),
   (kfBudget, ofOptInt d.budget),
   (kfRevenue, ofOptInt d.revenue),
   (kfPopularity, ofOptRat d.popularity),
   (kfVoteAverage, ofOptRat d.voteAverage),
   (kfOrigLang, ofOptStr d.originalLanguage),
   (kfCountry, ofOptStr (extractCountry d.productionCountries))].filter
    (fun kv => keepField kv.2)

/-! ## Storage counter increment (`increment_enriched_count`)

`StorageService.increment_enriched_count` performs two database round trips:
`self.db.query(Session).filter(...).first()` loads the row (in particular the
current `enriched_count`) and `session.enriched_count += 1; self.db.commit()`
writes back the loaded value plus one.  Two concurrent callers (each with its
own `SessionLocal` session, as created by `EnrichmentWorker._increment_progress`)
therefore interleave as two read actions and two write actions on the shared
row. -/

/-- One database round trip of one of two concurrent
`increment_enriched_count` calls, A and B. -/
inductive IncStep where
  | readA
  | writeA
  | readB
  | writeB
deriving DecidableEq

/-- The shared `enriched_count` row value plus each caller's loaded copy. -/
structure IncRun where
  counter : ℤ
  localA : Option ℤ
  localB : Option ℤ
deriving DecidableEq

/-- Execute one round trip: a read loads the row value into the caller's ORM
object; a write commits the loaded value plus one. -/
def incStep (s : IncRun) : IncStep → IncRun
  | .readA => { s with localA := some s.counter }
  | .writeA =>
      match s.localA with
      | some v => { s with counter := v + 1 }
      | none => s
  | .readB => { s with localB := some s.counter }
  | .writeB =>
      match s.localB with
      | some v => { s with counter := v + 1 }
      | none => s

/-- Run an interleaving of the two callers' round trips from counter `c0`. -/
def runIncSchedule (c0 : ℤ) (sched : List IncStep) : IncRun :=
  sched.foldl incStep { counter := c0, localA := none, localB := none }

/-! ## Batch orchestration (`_enrich_movie_async`, `enrich_session_async`) -/

/-- The enrichment record handed to the persistence collaborator. -/
abbrev Enrichment := List (String × EField)

/-- Outcome of `enrich_movie_async` (plus the save) for one work item.
`enriched` means the client returned truthy data and the save succeeded;
`notFound` means the client returned `None`; `enrichError` means an exception
escaped the client call.  The storage collaborator itself is assumed
available (its own failure modes are outside this claim's batches). -/
inductive ItemOutcome where
  | enriched (data : Enrichment)
  | notFound
  | enrichError
deriving DecidableEq

/-- Persisted enrichment results and the session's enriched counter. -/
structure OrchState where
  persisted : List (ℕ × Enrichment)
  counter : ℕ
deriving DecidableEq

/-- `_enrich_movie_async` for one item `(movie id, outcome)`: persist the
result only on success; the `finally:` block always increments the counter,
and an exception is caught at this boundary so siblings are unaffected. -/
def enrichMovieStep (s : OrchState) (item : ℕ × ItemOutcome) : OrchState :=
  let s1 :=
    match item.2 with
    | .enriched d => { s with persisted := s.persisted ++ [(item.1, d)] }
    | _ => s
  { s1 with counter := s1.counter + 1 }

/-- Process one batch: every member runs `_enrich_movie_async`
(`asyncio.gather(..., return_exceptions=True)` joins them all regardless of
individual outcome; the serialized counter/persist effects are folded in item
order, which is immaterial since they commute). -/
def processBatch (s : OrchState) (batch : List (ℕ × ItemOutcome)) : OrchState :=
  batch.foldl enrichMovieStep s

/-- Whether an item outcome is a successful enrichment. -/
def isEnriched : ItemOutcome → Bool
  | .enriched _ => true
  | _ => false

/-- The enrichment results a batch should persist: one per succeeded item. -/
def successResults (batch : List (ℕ × ItemOutcome)) : List (ℕ × Enrichment) :=
  batch.filterMap (fun it => match it.2 with | .enriched d => some (it.1, d) | _ => none)

/-- Partition a work list into batches of ten
(`range(0, len(unenriched_movies), batch_size)` slices). -/
def chunks10 {α : Type} (l : List α) : List (List α) :=
  match l with
  | [] => []
  | x :: xs => (x :: xs).take 10 :: chunks10 ((x :: xs).drop 10)
termination_by l.length
decreasing_by simp; omega

/-- The session row fields relevant to status reporting. -/
structure SessionRec where
  status : String
  errorMessage : Option String
deriving DecidableEq

/-- The status vocabulary accepted by `update_session_status`. -/
def VALID_STATUSES : List String := [ "processing", "enriching", "completed", "failed" ]

/-- Status literal. -/
def kCompleted : String := "completed"

/-- Status literal. -/
def kEnriching : String := "enriching"

/-- Status literal. -/
def kFailed : String := "failed"

/-- `update_session_status`: validate the status (raising `ValueError`
otherwise, modelled as `Except.error`), then set `session.status` and commit.
There is no error-message parameter and `error_message` is never written. -/
def updateSessionStatus (sess : SessionRec) (status : String) : Except String SessionRec :=
  if status ∈ VALID_STATUSES then .ok { sess with status := status }
  else .error status

/-- `enrich_session_async` for one cycle: fetch the unenriched work items
(`fetched` is the outcome of that storage call); with no items, mark the
session completed; otherwise process the items in batches of ten and mark the
session completed.  The top-level `except Exception` only logs: a storage
error while fetching leaves the session untouched, and a failure of the final
status update likewise leaves the previous status in place. -/
def enrichSessionAsync (sess : SessionRec) (orch : OrchState)
    (fetched : Except String (List (ℕ × ItemOutcome))) : SessionRec × OrchState :=
  match fetched with
  | .error _ => (sess, orch)
  | .ok [] =>
      match updateSessionStatus sess kCompleted with
      | .ok s2 => (s2, orch)
      | .error _ => (sess, orch)
  | .ok (m :: ms) =>
      let orch2 := (chunks10 (m :: ms)).foldl processBatch orch
      match updateSessionStatus sess kCompleted with
      | .ok s2 => (s2, orch2)
      | .error _ => (sess, orch2)

/-! ## Spec-side reference models and claim statements -/

/-- Modelled from the spec (§4.3): transient failures are network/connection
errors, request timeouts and explicit rate-limited signals. -/
def isTransient {α : Type} : HttpOutcome α → Bool
  | .timeout => true
  | .connError => true
  | .rateLimited => true
  | _ => false

/-- Modelled from the spec (§4.3 Retry Executor), inner loop: attempt `k`
(0-indexed); a transient failure waits `2^k` seconds and retries while fewer
than three attempts have been made, after which the last transient error is
surfaced (`none`); a terminal failure propagates immediately; a success
returns the body.  Returns (result, backoff sleeps, attempts made). -/
def retryExecSpecGo {α : Type} (k : ℕ) : List (HttpOutcome α) → Option α × List ℚ × ℕ
  | [] => (none, [], 0)
  | o :: rest =>
    if isTransient o then
      if k + 1 < 3 then
        let r := retryExecSpecGo (k + 1) rest
        (r.1, ((2 : ℚ) ^ k) :: r.2.1, r.2.2 + 1)
      else (none, [], 1)
    else
      match o with
      | .ok b => (some b, [], 1)
      | _ => (none, [], 1)

/-- Modelled from the spec (§4.3): the retry executor run from attempt 0. -/
def retryExecSpec {α : Type} (outs : List (HttpOutcome α)) : Option α × List ℚ × ℕ :=
  retryExecSpecGo 0 outs

/-- C1 as stated: the request layer behaves like the spec's retry executor —
same final result and same backoff sleeps — for every attempt-outcome
sequence. -/
def claimC1 : Prop :=
  ∀ (st : ClientState) (outs : List (HttpOutcome SearchResponse)),
    outs ≠ [] →
      (makeRequest st outs).result = (retryExecSpec outs).1 ∧
      (makeRequest st outs).sleeps = (retryExecSpec outs).2.1

/-- C2 as stated: on the synchronous path at most `REQUEST_LIMIT` recorded
timestamps ever lie in a trailing `RATE_LIMIT_WINDOW`-second window, and on
the asynchronous path at most `REQUEST_LIMIT` provider calls are made within
any trailing window, for every sequence of calls. -/
def claimC2 : Prop :=
  (∀ (t0 : ℚ) (deltas : List ℚ) (t : ℚ), (∀ δ ∈ deltas, 0 ≤ δ) →
      countWindow (runLimiter t0 deltas).history t ≤ REQUEST_LIMIT) ∧
  (∀ (t0 : ℚ) (calls : List (PyArg × Option ℤ × HttpOutcome SearchResponse)) (dur : ℚ)
      (t : ℚ), 0 < dur →
      countWindow (asyncSearchRun (initClientState t0) calls dur).2 t ≤ REQUEST_LIMIT)

/-- C5 as stated: a cycle-level error transitions the session to `failed`
and records an error message on it. -/
def claimC5 : Prop :=
  ∀ (sess : SessionRec) (orch : OrchState) (e : String),
    (enrichSessionAsync sess orch (Except.error e)).1.status = kFailed ∧
    (enrichSessionAsync sess orch (Except.error e)).1.errorMessage ≠ none

/-- Modelled from the spec (§4.4 step 2): the survivors of the low-popularity
filter — the unfiltered list when filtering would discard everything. -/
def survivors (results : List Candidate) : List Candidate :=
  let f := results.filter (fun r => decide (1 < r.popularity.getD 0))
  if f.isEmpty then results else f

/-- The code's notion of "release year equals the query year":
`release_date[:4] == str(year)`. -/
def yearMatchB (y : ℤ) (r : Candidate) : Bool :=
  decide ((r.releaseDate.getD []).take 4 = intStr y)

/-- C6 as stated: on every non-empty candidate list, if a query year is given
and some survivor's release year equals it, the first such survivor is
returned; otherwise the first survivor. -/
def claimC6 : Prop :=
  ∀ (results : List Candidate) (title : PyStr) (year : Option ℤ),
    results ≠ [] →
      findBestMatch results title year =
        (match year with
         | some y =>
           (match (survivors results).find? (yearMatchB y) with
            | some m => some m
            | none => (survivors results).head?)
         | none => (survivors results).head?)

/-- C8 as stated (the contested part): a required numeric field that is absent
is kept in the record as an explicit null rather than omitted. -/
def claimC8 : Prop :=
  ∀ d : Details, d.runtime = none → (kfRuntime, EField.nullF) ∈ extractEnrichmentData d

/-- C9 as stated: cache keys are derived from the lower-cased, trimmed
argument values, so argument lists agreeing up to case and surrounding
whitespace yield equal keys. -/
def claimC9 : Prop :=
  ∀ (kt : PyStr) (ps qs : List (PyStr × PyStr)),
    List.Forall₂ (fun a b => a.1 = b.1 ∧ pyLower (pyStrip a.2) = pyLower (pyStrip b.2)) ps qs →
    getCacheKey kt ps = getCacheKey kt qs

/-! Concrete inputs used by counterexamples and witnesses. -/

/-- A decoded search body for counterexample runs. -/
def respC1 : SearchResponse := { results := [] }

/-- Attempt outcomes: transient, transient, success — the spec's §8 retry
scenario. -/
def outsC1 : List (HttpOutcome SearchResponse) :=
  [HttpOutcome.timeout, HttpOutcome.timeout, HttpOutcome.ok respC1]

/-- The async-path title used by the C2 counterexample run. -/
def kX2 : PyStr := "x".toList

/-- Forty-one identical async searches, none of which is cacheable
(the provider answers 404 every time). -/
def callsC2 : List (PyArg × Option ℤ × HttpOutcome SearchResponse) :=
  List.replicate 41 (PyArg.str kX2, none, HttpOutcome.notFound)

/-- A candidate with popularity 50 released in 1998. -/
def candA : Candidate :=
  { tmdbId := some 1, popularity := some 50, releaseDate := some ( "1998-01-01".toList) }

/-- A candidate with popularity 60 whose `release_date[:4]` equals `str(0)`. -/
def candB : Candidate :=
  { tmdbId := some 2, popularity := some 60, releaseDate := some ( "0".toList) }

/-- A details payload with every field absent or empty. -/
def detailsEmpty : Details :=
  { tmdbId := none, genres := [], crew := [], cast := [], runtime := none, budget := none,
    revenue := none, popularity := none, voteAverage := none, originalLanguage := none,
    productionCountries := [] }

/-- A details payload with all five numeric fields present. -/
def detailsFull : Details :=
  { tmdbId := some 550, genres := [], crew := [], cast := [], runtime := some 139,
    budget := some 63000000, revenue := some 100853753, popularity := some (29 / 2),
    voteAverage := some (44 / 5), originalLanguage := none, productionCountries := [] }

/-- A cache key for the C7 witness. -/
def kX7 : PyStr := "k".toList

/-- A cached value for the C7 witness. -/
def cv7 : CVal := CVal.cand { tmdbId := none, popularity := none, releaseDate := none }

/-- A one-entry cache, set at time 0, for the C7 witness. -/
def cacheC7 : Cache CVal := [(kX7, cv7, 0)]

/-- Case-variant argument list for the C9 witness. -/
def psC9 : List (PyStr × PyStr) := [(kTitle, "FIGHT CLUB".toList)]

/-- Case-variant argument list for the C9 witness. -/
def qsC9 : List (PyStr × PyStr) := [(kTitle, "fight club".toList)]

/-- Whitespace-variant argument list for the C9 counterexample. -/
def psC9s : List (PyStr × PyStr) := [(kTitle, "Fight Club".toList)]

/-- Whitespace-variant argument list for the C9 counterexample. -/
def qsC9s : List (PyStr × PyStr) := [(kTitle, " Fight Club".toList)]

/-- A three-item batch — one success, one not-found, one raised error — for
the C4 witness. -/
def batchC4 : List (ℕ × ItemOutcome) :=
  [(1, ItemOutcome.enriched [(kfRuntime, EField.intF 120)]), (2, ItemOutcome.notFound),
   (3, ItemOutcome.enrichError)]

/-- An empty orchestrator state for the C4 witness. -/
def orchC4 : OrchState := { persisted := [], counter := 0 }

/-! ## Rate-limiter invariant -/

/-- The number of timestamps of `h` strictly above the cutoff `c`. -/
def countGt (h : List ℚ) (c : ℚ) : ℕ :=
  (h.filter (fun x => decide (c < x))).length

/-- The sliding-window property: no trailing window ever holds more than
`REQUEST_LIMIT` recorded timestamps. -/
def WindowOK (h : List ℚ) : Prop :=
  ∀ t, countWindow h t ≤ REQUEST_LIMIT

/-- The inductive invariant of `_wait_for_rate_limit`: the ghost history
satisfies the window property; above any cutoff at least as old as the
window, the pruned `_request_times` list still holds exactly the fresh
history entries; and `_request_times` never exceeds `REQUEST_LIMIT` entries. -/
def LimInv (s : ClientState) : Prop :=
  WindowOK s.history ∧
  (∀ c, s.now - RATE_LIMIT_WINDOW ≤ c → countGt s.history c = countGt s.requestTimes c) ∧
  s.requestTimes.length ≤ REQUEST_LIMIT

/-! ## C1: retry and backoff -/

/-- C1 (amended): no retry/backoff layer exists in `_make_request`.  Each
provider request performs exactly one HTTP attempt whatever its outcome:
a 200 returns the body and every failure — transient (timeout, connection
error, 429) and terminal (404, 401, other statuses) alike — yields `None`;
a 429 additionally sleeps one second; the outcomes later attempts would
observe never influence the result. -/
theorem c1_single_attempt_no_backoff :
    ∀ (st : ClientState) (o : HttpOutcome SearchResponse)
      (rest rest2 : List (HttpOutcome SearchResponse)),
      (makeRequest st (o :: rest)).result =
        (match o with | .ok b => some b | _ => none) ∧
      (makeRequest st (o :: rest)).sleeps =
        (match o with | .rateLimited => [(1 : ℚ)] | _ => []) ∧
      (makeRequest st (o :: rest)).calls.length = 1 ∧
      makeRequest st (o :: rest) = makeRequest st (o :: rest2) := by
  intro st o rest rest2
  cases o <;> simp [makeRequest]

/-- C1 (counterexample): on the spec's own scenario — transient failures on
the first two attempts, success on the third — the code returns `None` after
a single attempt with no backoff sleeps, where the claimed retry executor
returns the successful body after sleeps of 1 s and 2 s. -/
theorem c1_counterexample : ¬ claimC1 := by
  intro h
  exact absurd ((h (initClientState 0) outsC1 (by decide)).1) (by decide)

/-! ## C3: atomicity of the per-session counter increment -/

/-- C3 (code bug): `increment_enriched_count` is a read-modify-write, not an
atomic storage-layer increment.  Under the interleaving read-A, read-B,
write-A, write-B both callers complete a full increment yet the counter moves
from 0 to 1 — one update is lost — while the serialized schedule yields 2. -/
theorem c3_lost_update :
    (runIncSchedule 0
        [IncStep.readA, IncStep.readB, IncStep.writeA, IncStep.writeB]).counter = 1 ∧
    (runIncSchedule 0
        [IncStep.readA, IncStep.writeA, IncStep.readB, IncStep.writeB]).counter = 2 := by
  constructor <;> rfl

/-! ## C5: cycle-level error handling -/

/-- C5 (amended): an unexpected cycle-level error (the storage collaborator
failing while fetching the work items) is caught by the top-level
`except Exception` and only logged: the session keeps its previous status and
its previous (absent) error message — it is not transitioned to `failed` —
and `update_session_status` can never record an error message on any path. -/
theorem c5_cycle_error_only_logged :
    (∀ (sess : SessionRec) (orch : OrchState) (e : String),
        enrichSessionAsync sess orch (Except.error e) = (sess, orch)) ∧
    (∀ (sess : SessionRec) (status : String),
        (match updateSessionStatus sess status with
         | .ok s2 => s2.errorMessage
         | .error _ => sess.errorMessage) = sess.errorMessage) := by
  constructor
  · intro sess orch e
    rfl
  · intro sess status
    unfold updateSessionStatus
    by_cases h : status ∈ VALID_STATUSES <;> simp [h]

/-- C5 (counterexample): a session in `enriching` whose cycle hits a storage
error while fetching work items stays in `enriching` with no error message,
contradicting the claimed transition to `failed` with a recorded message. -/
theorem c5_counterexample : ¬ claimC5 := by
  intro h
  exact absurd ((h { status := kEnriching, errorMessage := none } { persisted := [], counter := 0 }
    "storage unavailable").1) (by decide)

/-! ## C10: input validation short-circuits -/

/-- C10: an empty or non-string title makes `search_movie` and
`search_movie_async` return `None` with the client state unchanged (so no
rate-limiter timestamp is recorded) and no provider call made; a provider id
that is not a positive integer does the same for `get_movie_details` and
`get_movie_details_async`. -/
theorem c10_invalid_inputs_no_network :
    (∀ (st : ClientState) (t : PyArg) (year : Option ℤ)
        (outs : List (HttpOutcome SearchResponse)) (out : HttpOutcome SearchResponse)
        (dur : ℚ), titleValid t = false →
        searchMovie st t year outs = (none, st, []) ∧
        searchMovieAsync st t year out dur = (none, st, [])) ∧
    (∀ (st : ClientState) (idv : PyArg) (outs : List (HttpOutcome Details))
        (out : HttpOutcome Details) (dur : ℚ), tmdbIdValid idv = false →
        getMovieDetails st idv outs = (none, st, []) ∧
        getMovieDetailsAsync st idv out dur = (none, st, [])) := by
  constructor
  · intro st t year outs out dur h
    exact ⟨by simp [searchMovie, h], by simp [searchMovieAsync, h]⟩
  · intro st idv outs out dur h
    exact ⟨by simp [getMovieDetails, h], by simp [getMovieDetailsAsync, h]⟩

/-- C10 (witness): the guards are discharged at the concrete invalid inputs
`title = 5` (an int, hence rejected) and `tmdb_id = 0` (not positive). -/
theorem c10_witness :
    (searchMovie (initClientState 0) (PyArg.int 5) none [] = (none, initClientState 0, []) ∧
     searchMovieAsync (initClientState 0) (PyArg.int 5) none HttpOutcome.notFound 1 =
       (none, initClientState 0, [])) ∧
    (getMovieDetails (initClientState 0) (PyArg.int 0) [] = (none, initClientState 0, []) ∧
     getMovieDetailsAsync (initClientState 0) (PyArg.int 0) HttpOutcome.notFound 1 =
       (none, initClientState 0, [])) := by
  constructor
  · exact c10_invalid_inputs_no_network.1 (initClientState 0) (PyArg.int 5) none []
      HttpOutcome.notFound 1 (by decide)
  · exact c10_invalid_inputs_no_network.2 (initClientState 0) (PyArg.int 0) []
      HttpOutcome.notFound 1 (by decide)

/-! ## C7: cache TTL semantics -/

/-- Reading a cache whose head entry carries the requested key resolves by
the head entry's age. -/
theorem getFromCache_cons_self {α : Type} (c : Cache α) (k : PyStr) (v : α) (ts now : ℚ) :
    getFromCache ((k, v, ts) :: c) k now =
      if now - ts < CACHE_TTL then (some v, (k, v, ts) :: c)
      else (none, ((k, v, ts) :: c).filter (fun e2 => !decide (e2.1 = k))) := by
  unfold getFromCache
  rw [show List.find? (fun e => decide (e.1 = k)) ((k, v, ts) :: c) = some (k, v, ts) by
    simp [List.find?_cons]]

/-- C7: a get after a set for the same key returns the stored value unchanged
while strictly less than `CACHE_TTL` seconds have elapsed and nothing once the
TTL has elapsed; and any lookup returning a value stems from an entry set less
than `CACHE_TTL` seconds ago — an expired entry is never returned. -/
theorem c7_cache_ttl :
    (∀ (c : Cache CVal) (k : PyStr) (v : CVal) (tset tnow : ℚ),
        (getFromCache (setCache c k v tset) k tnow).1 =
          if tnow - tset < CACHE_TTL then some v else none) ∧
    (∀ (c : Cache CVal) (k : PyStr) (tnow : ℚ) (v : CVal),
        (getFromCache c k tnow).1 = some v →
          ∃ ts : ℚ, (k, v, ts) ∈ c ∧ tnow - ts < CACHE_TTL) := by
  constructor
  · intro c k v tset tnow
    simp only [setCache]
    rw [getFromCache_cons_self]
    by_cases hlt : tnow - tset < CACHE_TTL <;> simp [hlt]
  · intro c k tnow v h
    unfold getFromCache at h
    cases hf : c.find? (fun e => decide (e.1 = k)) with
    | none => rw [hf] at h; simp at h
    | some e =>
      rw [hf] at h
      have h2 : (if tnow - e.2.2 < CACHE_TTL then ((some e.2.1 : Option CVal), c)
          else (none, c.filter (fun e2 => !decide (e2.1 = k)))).1 = some v := h
      by_cases hlt : tnow - e.2.2 < CACHE_TTL
      · rw [if_pos hlt] at h2
        simp only [Option.some.injEq] at h2
        have hk : e.1 = k := by simpa using List.find?_some hf
        have hm : e ∈ c := List.mem_of_find?_eq_some hf
        refine ⟨e.2.2, ?_, hlt⟩
        have he : (k, v, e.2.2) = e := by
          obtain ⟨e1, e2, e3⟩ := e
          simp only at hk h2
          rw [hk, h2]
        rw [he]
        exact hm
      · rw [if_neg hlt] at h2
        simp at h2

/-- C7 (witness): the TTL equation instantiated at an expired read (100 s
after a set at time 0 would still be fresh; shown as the `if`), and the
freshness invariant instantiated at a concrete one-entry cache read at
time 50. -/
theorem c7_witness :
    (getFromCache (setCache ([] : Cache CVal) kX7 cv7 0) kX7 100).1 =
      (if (100 : ℚ) - 0 < CACHE_TTL then some cv7 else none) ∧
    (∃ ts : ℚ, (kX7, cv7, ts) ∈ cacheC7 ∧ (50 : ℚ) - ts < CACHE_TTL) := by
  constructor
  · exact c7_cache_ttl.1 [] kX7 cv7 0 100
  · exact c7_cache_ttl.2 cacheC7 kX7 50 cv7
      (by norm_num [getFromCache, cacheC7, List.find?_cons, CACHE_TTL])

/-! ## C4: batch progress accounting -/

/-- Splitting a batch into its successes and its failures: the persisted
results and the non-enriched items together count the whole batch. -/
theorem successResults_length_add (batch : List (ℕ × ItemOutcome)) :
    (successResults batch).length + (batch.filter (fun it => !isEnriched it.2)).length =
      batch.length := by
  induction batch with
  | nil => rfl
  | cons a l ih =>
    obtain ⟨i, o⟩ := a
    cases o with
    | enriched d =>
      have h1 : successResults ((i, ItemOutcome.enriched d) :: l) =
          (i, d) :: successResults l := rfl
      have h2 : ((i, ItemOutcome.enriched d) :: l).filter (fun it => !isEnriched it.2) =
          l.filter (fun it => !isEnriched it.2) := rfl
      rw [h1, h2, List.length_cons, List.length_cons]
      omega
    | notFound =>
      have h1 : successResults ((i, ItemOutcome.notFound) :: l) = successResults l := rfl
      have h2 : ((i, ItemOutcome.notFound) :: l).filter (fun it => !isEnriched it.2) =
          (i, ItemOutcome.notFound) :: l.filter (fun it => !isEnriched it.2) := rfl
      rw [h1, h2, List.length_cons, List.length_cons]
      omega
    | enrichError =>
      have h1 : successResults ((i, ItemOutcome.enrichError) :: l) = successResults l := rfl
      have h2 : ((i, ItemOutcome.enrichError) :: l).filter (fun it => !isEnriched it.2) =
          (i, ItemOutcome.enrichError) :: l.filter (fun it => !isEnriched it.2) := rfl
      rw [h1, h2, List.length_cons, List.length_cons]
      omega

/-- C4: processing a batch of `N` items of which `M` fail enrichment (not
found, or an error from the client) increments the enriched counter by
exactly `N` — once per item regardless of outcome, no failure aborting its
siblings — and persists an enrichment result for exactly the `N − M` items
that succeeded. -/
theorem c4_batch_accounting (s : OrchState) (batch : List (ℕ × ItemOutcome)) (M : ℕ)
    (hM : M = (batch.filter (fun it => !isEnriched it.2)).length) :
    (processBatch s batch).counter = s.counter + batch.length ∧
    (processBatch s batch).persisted = s.persisted ++ successResults batch ∧
    (successResults batch).length = batch.length - M := by
  subst hM
  refine ⟨?_, ?_, ?_⟩
  · induction batch generalizing s with
    | nil => simp [processBatch]
    | cons a l ih =>
      have hstep : processBatch s (a :: l) = processBatch (enrichMovieStep s a) l := rfl
      have h1 : (enrichMovieStep s a).counter = s.counter + 1 := by
        obtain ⟨i, o⟩ := a
        cases o <;> rfl
      rw [hstep, ih, h1, List.length_cons]
      omega
  · induction batch generalizing s with
    | nil => simp [processBatch, successResults]
    | cons a l ih =>
      have hstep : processBatch s (a :: l) = processBatch (enrichMovieStep s a) l := rfl
      rw [hstep, ih]
      obtain ⟨i, o⟩ := a
      cases o <;> simp [enrichMovieStep, successResults, List.filterMap_cons]
  · have := successResults_length_add batch
    omega

/-- C4 (witness): the accounting at a concrete batch of three items with two
failures — counter up by three, exactly one persisted result. -/
theorem c4_witness :
    (processBatch orchC4 batchC4).counter = orchC4.counter + batchC4.length ∧
    (processBatch orchC4 batchC4).persisted = orchC4.persisted ++ successResults batchC4 ∧
    (successResults batchC4).length = batchC4.length - 2 :=
  c4_batch_accounting orchC4 batchC4 2 (by decide)

/-! ## C8: enrichment-record normalization -/

/-- A key absent from an association list is absent after filtering too. -/
theorem lookup_eq_none_of_keys_ne (l : List (String × EField)) (k : String)
    (h : ∀ b ∈ l, b.1 ≠ k) : l.lookup k = none := by
  induction l with
  | nil => rfl
  | cons p l ih =>
    obtain ⟨pk, pv⟩ := p
    have hk : (k == pk) = false := by
      have := h (pk, pv) (List.mem_cons_self _ _)
      simp only [ne_eq] at this
      simp [beq_iff_eq]
      exact fun he => this he.symm
    simp only [List.lookup, hk]
    exact ih (fun b hb => h b (List.mem_cons_of_mem _ hb))

/-- Looking a key up in the record after the `None`/empty-list filter: when the
keys are distinct, the result is the key's unfiltered value if that value is
kept, and nothing — not an explicit null — otherwise. -/
theorem lookup_filter_unique (l : List (String × EField)) (k : String)
    (hu : l.Pairwise (fun a b => a.1 ≠ b.1)) :
    (l.filter (fun kv => keepField kv.2)).lookup k =
      (l.lookup k).bind (fun v => if keepField v then some v else none) := by
  induction l with
  | nil => rfl
  | cons p l ih =>
    obtain ⟨pk, pv⟩ := p
    rw [List.pairwise_cons] at hu
    by_cases hpk : k = pk
    · subst hpk
      have hnl : ∀ b ∈ l, b.1 ≠ k := fun b hb => Ne.symm (hu.1 b hb)
      cases hkeep : keepField pv
      · have hnone : (l.filter (fun kv => keepField kv.2)).lookup k = none :=
          lookup_eq_none_of_keys_ne _ _ (fun b hb => hnl b (List.mem_of_mem_filter hb))
        simp [List.filter_cons, hkeep, List.lookup, hnone]
      · simp [List.filter_cons, hkeep, List.lookup]
    · have hbeq : (k == pk) = false := by simp [hpk]
      cases hkeep : keepField pv <;>
        simp [List.filter_cons, hkeep, List.lookup, hbeq] <;>
        exact ih hu.2

/-- The eleven field names of the enrichment record are pairwise distinct. -/
theorem enrichment_keys_pairwise (d : Details) :
    List.Pairwise (fun a b => a.1 ≠ b.1)
      [(kfTmdbId, ofOptInt d.tmdbId), (kfGenres, EField.listF (extractGenres d.genres)),
       (kfDirectors, EField.listF (extractDirectors d.crew)),
       (kfCast, EField.listF (extractCast d.cast)),
       (kfRuntime, ofOptInt d.runtime), (kfBudget, ofOptInt d.budget),
       (kfRevenue, ofOptInt d.revenue), (kfPopularity, ofOptRat d.popularity),
       (kfVoteAverage, ofOptRat d.voteAverage), (kfOrigLang, ofOptStr d.originalLanguage),
       (kfCountry, ofOptStr (extractCountry d.productionCountries))] := by
  simp [List.pairwise_cons, kfTmdbId, kfGenres, kfDirectors, kfCast, kfRuntime, kfBudget,
    kfRevenue, kfPopularity, kfVoteAverage, kfOrigLang, kfCountry]

/-- Resolving the kept-or-dropped bind for an optional integer field. -/
theorem ofOptInt_bind_keep (o : Option ℤ) :
    (some (ofOptInt o)).bind (fun v => if keepField v then some v else none) =
      o.map EField.intF := by
  cases o <;> rfl

/-- Resolving the kept-or-dropped bind for an optional float field. -/
theorem ofOptRat_bind_keep (o : Option ℚ) :
    (some (ofOptRat o)).bind (fun v => if keepField v then some v else none) =
      o.map EField.ratF := by
  cases o <;> rfl

/-- C8 (amended): normalization drops every field that is absent or an empty
sequence — including the numeric fields runtime, budget, revenue, popularity
and vote average, which when absent are omitted from the record rather than
kept as explicit nulls: looking such a field up yields nothing exactly when
the source value is absent, and the present value otherwise. -/
theorem c8_absent_numeric_fields_dropped (d : Details) :
    (∀ kv ∈ extractEnrichmentData d, keepField kv.2 = true) ∧
    (extractEnrichmentData d).lookup kfRuntime = d.runtime.map EField.intF ∧
    (extractEnrichmentData d).lookup kfBudget = d.budget.map EField.intF ∧
    (extractEnrichmentData d).lookup kfRevenue = d.revenue.map EField.intF ∧
    (extractEnrichmentData d).lookup kfPopularity = d.popularity.map EField.ratF ∧
    (extractEnrichmentData d).lookup kfVoteAverage = d.voteAverage.map EField.ratF := by
  refine ⟨?_, ?_, ?_, ?_, ?_, ?_⟩
  · intro kv hkv
    unfold extractEnrichmentData at hkv
    simpa using List.of_mem_filter hkv
  · unfold extractEnrichmentData
    rw [lookup_filter_unique]
    · exact ofOptInt_bind_keep d.runtime
    · exact enrichment_keys_pairwise d
  · unfold extractEnrichmentData
    rw [lookup_filter_unique]
    · exact ofOptInt_bind_keep d.budget
    · exact enrichment_keys_pairwise d
  · unfold extractEnrichmentData
    rw [lookup_filter_unique]
    · exact ofOptInt_bind_keep d.revenue
    · exact enrichment_keys_pairwise d
  · unfold extractEnrichmentData
    rw [lookup_filter_unique]
    · exact ofOptRat_bind_keep d.popularity
    · exact enrichment_keys_pairwise d
  · unfold extractEnrichmentData
    rw [lookup_filter_unique]
    · exact ofOptRat_bind_keep d.voteAverage
    · exact enrichment_keys_pairwise d

/-- C8 (counterexample): on a details payload whose runtime is absent, the
record contains no `runtime` entry at all — the claimed explicit null is not
kept. -/
theorem c8_counterexample : ¬ claimC8 := by
  intro h
  exact absurd (h detailsEmpty rfl) (by decide)

/-- C8 (witness): on a fully populated details payload the runtime entry is a
kept, present value. -/
theorem c8_witness :
    keepField (EField.intF 139) = true ∧
    (extractEnrichmentData detailsFull).lookup kfRuntime = detailsFull.runtime.map EField.intF :=
  ⟨(c8_absent_numeric_fields_dropped detailsFull).1 (kfRuntime, EField.intF 139) (by decide),
   (c8_absent_numeric_fields_dropped detailsFull).2.1⟩

/-! ## C6: best-match selection -/

/-- The head of a filtered list is the first element satisfying the filter. -/
theorem head?_filter_eq_find? {α : Type} (p : α → Bool) (l : List α) :
    (l.filter p).head? = l.find? p := by
  induction l with
  | nil => rfl
  | cons a t ih => cases hp : p a <;> simp [List.filter_cons, List.find?_cons, hp, ih]

/-- Taking the head of the matches, falling back to the list head, is the
same as `find?` with the same fallback. -/
theorem firstMatch_eq (l : List Candidate) (p : Candidate → Bool) :
    (match l.filter p with
     | m :: _ => some m
     | [] => l.head?) =
    (match l.find? p with
     | some m => some m
     | none => l.head?) := by
  rw [← head?_filter_eq_find?]
  cases l.filter p <;> rfl

/-- The survivors of the low-popularity filter are never empty when the
candidate list is not. -/
theorem survivors_ne_nil (results : List Candidate) (hne : results ≠ []) :
    survivors results ≠ [] := by
  simp only [survivors]
  by_cases he : (results.filter (fun r => decide (1 < r.popularity.getD 0))).isEmpty = true
  · rw [if_pos he]
    exact hne
  · rw [if_neg he]
    intro hc
    rw [hc] at he
    exact he rfl

/-- C6 (amended): on every non-empty candidate list the survivors of the
low-popularity filter are non-empty, and the selection returns the first
survivor whose `release_date[:4]` equals `str(year)` when a nonzero query
year is given and such a survivor exists, and the first survivor otherwise —
in particular a query year of 0 is treated like no year (Python truthiness). -/
theorem c6_best_match (results : List Candidate) (title : PyStr) (year : Option ℤ)
    (hne : results ≠ []) :
    survivors results ≠ [] ∧
    findBestMatch results title year =
      (match year with
       | some y =>
         if y = 0 then (survivors results).head?
         else
           (match (survivors results).find? (yearMatchB y) with
            | some m => some m
            | none => (survivors results).head?)
       | none => (survivors results).head?) := by
  refine ⟨survivors_ne_nil results hne, ?_⟩
  have hie : results.isEmpty = false := List.isEmpty_eq_false.mpr hne
  unfold findBestMatch
  rw [hie]
  cases year with
  | none => rfl
  | some y =>
    by_cases hy : y = 0
    · simp only [Bool.false_eq_true, if_false, if_pos hy]
      rfl
    · simp only [Bool.false_eq_true, if_false, if_neg hy]
      exact firstMatch_eq (survivors results) (yearMatchB y)

/-- C6 (witness): a singleton candidate list with no query year selects its
only (surviving) candidate. -/
theorem c6_witness :
    survivors [candA] ≠ [] ∧
    findBestMatch [candA] [] none =
      (match (none : Option ℤ) with
       | some y =>
         if y = 0 then (survivors [candA]).head?
         else
           (match (survivors [candA]).find? (yearMatchB y) with
            | some m => some m
            | none => (survivors [candA]).head?)
       | none => (survivors [candA]).head?) :=
  c6_best_match [candA] [] none (by simp)

/-- C6 (counterexample): with query year 0 and a survivor whose
`release_date[:4]` equals `str(0)`, the claim as stated demands that survivor,
but the code's `if year:` truthiness test skips year preference entirely and
returns the first survivor instead. -/
theorem c6_counterexample : ¬ claimC6 := by
  intro h
  have h2 := h [candA, candB] [] (some 0) (by simp)
  have hL : findBestMatch [candA, candB] [] (some 0) = some candA := by decide
  have hR : (match some (0 : ℤ) with
      | some y =>
        (match (survivors [candA, candB]).find? (yearMatchB y) with
         | some m => some m
         | none => (survivors [candA, candB]).head?)
      | none => (survivors [candA, candB]).head?) = some candB := by decide
  rw [hL, hR] at h2
  exact absurd (congrArg Candidate.tmdbId (Option.some.inj h2)) (by decide)

/-! ## C9: cache-key derivation -/

/-- Ordered insertion respects any pairwise relation that preserves keys. -/
theorem insertByKey_forall₂ {R : (PyStr × PyStr) → (PyStr × PyStr) → Prop}
    (hR : ∀ a b, R a b → a.1 = b.1) {a b : PyStr × PyStr} {l l2 : List (PyStr × PyStr)}
    (hab : R a b) (hll : List.Forall₂ R l l2) :
    List.Forall₂ R (insertByKey a l) (insertByKey b l2) := by
  induction hll with
  | nil => exact List.Forall₂.cons hab List.Forall₂.nil
  | @cons y y2 t t2 hy hl ih =>
    simp only [insertByKey]
    rw [hR y y2 hy, hR a b hab]
    by_cases hc : strLt y2.1 b.1 = true
    · rw [if_pos hc, if_pos hc]
      exact List.Forall₂.cons hy ih
    · rw [if_neg hc, if_neg hc]
      exact List.Forall₂.cons hab (List.Forall₂.cons hy hl)

/-- Sorting the parameters respects any pairwise relation that preserves keys. -/
theorem sortParams_forall₂ {R : (PyStr × PyStr) → (PyStr × PyStr) → Prop}
    (hR : ∀ a b, R a b → a.1 = b.1) {l l2 : List (PyStr × PyStr)}
    (h : List.Forall₂ R l l2) :
    List.Forall₂ R (sortParams l) (sortParams l2) := by
  induction h with
  | nil => exact List.Forall₂.nil
  | cons hab h ih => exact insertByKey_forall₂ hR hab ih

/-- Mapping two pointwise-related lists with functions that agree on related
elements yields equal lists. -/
theorem map_eq_of_forall₂ {α β : Type} {R : α → α → Prop} {f g : α → β}
    (hfg : ∀ a b, R a b → f a = g b) {l l2 : List α} (h : List.Forall₂ R l l2) :
    l.map f = l2.map g := by
  induction h with
  | nil => rfl
  | cons hab h ih => simp only [List.map_cons, hfg _ _ hab, ih]

/-- C9 (amended): cache keys are derived from the operation name and the
lower-cased — but not trimmed — argument values: argument lists with equal
keys whose values agree after lower-casing produce the same cache key. -/
theorem c9_lowercased_keys (kt : PyStr) (ps qs : List (PyStr × PyStr))
    (h : List.Forall₂ (fun a b => a.1 = b.1 ∧ pyLower a.2 = pyLower b.2) ps qs) :
    getCacheKey kt ps = getCacheKey kt qs := by
  unfold getCacheKey
  have hs := sortParams_forall₂ (fun a b hab => hab.1) h
  have hm : (sortParams ps).map (fun kv => pyLower (kv.1 ++ '_' :: kv.2)) =
      (sortParams qs).map (fun kv => pyLower (kv.1 ++ '_' :: kv.2)) := by
    refine map_eq_of_forall₂ (fun a b hab => ?_) hs
    have h2 := hab.2
    simp only [pyLower, List.map_append, List.map_cons] at h2 ⊢
    rw [hab.1, h2]
  rw [hm]

/-- C9 (witness): `FIGHT CLUB` and `fight club` map to the same search cache
key. -/
theorem c9_witness : getCacheKey kSearch psC9 = getCacheKey kSearch qsC9 :=
  c9_lowercased_keys kSearch psC9 qsC9 (List.Forall₂.cons ⟨rfl, by decide⟩ List.Forall₂.nil)

/-- C9 (counterexample): `Fight Club` and ` Fight Club` agree after trimming
and lower-casing, but their cache keys differ — the key derivation never
strips, so whitespace variants do miss each other's entries. -/
theorem c9_counterexample : ¬ claimC9 := by
  intro h
  exact absurd (h kSearch psC9s qsC9s (List.Forall₂.cons ⟨rfl, by decide⟩ List.Forall₂.nil))
    (by decide)

/-! ## C2: sliding-window rate limiting -/

/-- Pruning entries at or below an older cutoff does not change the count
above a newer cutoff. -/
theorem countGt_filter_of_le (l : List ℚ) (b c : ℚ) (hbc : b ≤ c) :
    countGt (l.filter (fun x => decide (b < x))) c = countGt l c := by
  unfold countGt
  rw [List.filter_filter]
  refine congrArg List.length (List.filter_congr ?_)
  intro x _
  by_cases hx : c < x
  · have hbx : b < x := lt_of_le_of_lt hbc hx
    simp [hx, hbx]
  · simp [hx]

/-- Appending one timestamp adds one to the count above a cutoff exactly when
the timestamp clears the cutoff. -/
theorem countGt_append_singleton (h : List ℚ) (T c : ℚ) :
    countGt (h ++ [T]) c = countGt h c + (if c < T then 1 else 0) := by
  unfold countGt
  rw [List.filter_append, List.length_append]
  by_cases hT : c < T <;> simp [hT]

/-- Appending one timestamp adds at most one window occupant, and only to
windows containing it. -/
theorem countWindow_append_singleton (h : List ℚ) (T t : ℚ) :
    countWindow (h ++ [T]) t =
      countWindow h t + (if t - RATE_LIMIT_WINDOW < T ∧ T ≤ t then 1 else 0) := by
  unfold countWindow
  rw [List.filter_append, List.length_append]
  by_cases hT : t - RATE_LIMIT_WINDOW < T ∧ T ≤ t
  · simp [hT.1, hT.2]
  · rcases not_and_or.mp hT with hT1 | hT2
    · simp [hT, hT1]
    · simp [hT, hT2]

/-- Every window occupant younger than `T`'s window start is counted by
`countGt` at `T - RATE_LIMIT_WINDOW` once the window reaches `T`. -/
theorem countWindow_le_countGt (h : List ℚ) (T t : ℚ) (h2 : T ≤ t) :
    countWindow h t ≤ countGt h (T - RATE_LIMIT_WINDOW) := by
  unfold countWindow countGt
  rw [← List.countP_eq_length_filter, ← List.countP_eq_length_filter]
  refine List.countP_mono_left ?_
  intro x _ hx
  simp only [Bool.and_eq_true, decide_eq_true_eq] at hx
  simp only [decide_eq_true_eq]
  linarith [hx.1, hx.2]

/-- Appending a timestamp preserves the window property provided fewer than
`REQUEST_LIMIT` recorded timestamps are younger than its window start. -/
theorem windowOK_append (h : List ℚ) (T : ℚ)
    (hc : countGt h (T - RATE_LIMIT_WINDOW) + 1 ≤ REQUEST_LIMIT)
    (hw : WindowOK h) : WindowOK (h ++ [T]) := by
  intro t
  rw [countWindow_append_singleton]
  by_cases hin : t - RATE_LIMIT_WINDOW < T ∧ T ≤ t
  · rw [if_pos hin]
    have := countWindow_le_countGt h T t hin.2
    omega
  · rw [if_neg hin]
    have := hw t
    omega

/-- Advancing the wall clock preserves the limiter invariant. -/
theorem limInv_advance (s : ClientState) (δ : ℚ) (hδ : 0 ≤ δ) (hs : LimInv s) :
    LimInv { s with now := s.now + δ } := by
  obtain ⟨hw, hfr, hcard⟩ := hs
  exact ⟨hw, fun c hc => hfr c (by simp only at hc; linarith), hcard⟩

/-- `_wait_for_rate_limit` preserves the limiter invariant. -/
theorem limInv_wait (s : ClientState) (hs : LimInv s) : LimInv (waitForRateLimit s) := by
  obtain ⟨hw, hfr, hcard⟩ := hs
  have hRL : REQUEST_LIMIT = 40 := rfl
  simp only [waitForRateLimit]
  split
  case isTrue h40 =>
    split
    next heq =>
      exfalso
      rw [heq] at h40
      simp only [List.length_nil] at h40
      omega
    next u0 rest heq =>
      have hu0 : s.now - RATE_LIMIT_WINDOW < u0 := by
        have hmem : u0 ∈ s.requestTimes.filter
            (fun u => decide (s.now - RATE_LIMIT_WINDOW < u)) := by
          rw [heq]
          exact List.mem_cons_self _ _
        simpa using (List.mem_filter.mp hmem).2
      have hlen40 : rest.length + 1 = 40 := by
        rw [heq] at h40
        have hle : (u0 :: rest).length ≤ s.requestTimes.length := by
          rw [← heq]
          exact List.length_filter_le _ _
        simp only [List.length_cons] at h40 hle
        omega
      split
      case isTrue hwt =>
        set T := s.now + (u0 - (s.now - RATE_LIMIT_WINDOW) + 1 / 10) with hT
        have hT10 : T - RATE_LIMIT_WINDOW = u0 + 1 / 10 := by
          rw [hT]
          ring
        have hp2 : ((u0 :: rest).filter
            (fun u => decide (T - RATE_LIMIT_WINDOW < u))).length ≤ rest.length := by
          have hdec : (decide (T - RATE_LIMIT_WINDOW < u0)) = false := by
            rw [hT10]
            exact decide_eq_false (by linarith)
          rw [List.filter_cons, hdec]
          simp only [Bool.false_eq_true, if_false]
          exact List.length_filter_le _ _
        refine ⟨?_, ?_, ?_⟩
        · show WindowOK (s.history ++ [T])
          refine windowOK_append _ _ ?_ hw
          have e1 : countGt s.history (T - RATE_LIMIT_WINDOW)
              = countGt s.requestTimes (T - RATE_LIMIT_WINDOW) :=
            hfr _ (by rw [hT10]; linarith)
          have e2 : countGt (u0 :: rest) (T - RATE_LIMIT_WINDOW)
              = countGt s.requestTimes (T - RATE_LIMIT_WINDOW) := by
            rw [← heq]
            exact countGt_filter_of_le _ _ _ (by rw [hT10]; linarith)
          have e3 : countGt (u0 :: rest) (T - RATE_LIMIT_WINDOW) = ((u0 :: rest).filter
              (fun u => decide (T - RATE_LIMIT_WINDOW < u))).length := rfl
          omega
        · intro c hc
          simp only at hc
          show countGt (s.history ++ [T]) c = countGt (((u0 :: rest).filter
            (fun u => decide (T - RATE_LIMIT_WINDOW < u))) ++ [T]) c
          rw [countGt_append_singleton, countGt_append_singleton]
          have hcge : s.now - RATE_LIMIT_WINDOW ≤ c := by
            rw [hT10] at hc
            linarith
          have e1 : countGt s.history c = countGt s.requestTimes c := hfr c hcge
          have e2 : countGt (u0 :: rest) c = countGt s.requestTimes c := by
            rw [← heq]
            exact countGt_filter_of_le _ _ _ hcge
          have e3 : countGt ((u0 :: rest).filter
              (fun u => decide (T - RATE_LIMIT_WINDOW < u))) c = countGt (u0 :: rest) c :=
            countGt_filter_of_le _ _ _ hc
          omega
        · show (((u0 :: rest).filter
            (fun u => decide (T - RATE_LIMIT_WINDOW < u))) ++ [T]).length ≤ REQUEST_LIMIT
          rw [List.length_append]
          simp only [List.length_cons, List.length_nil]
          omega
      case isFalse hwt =>
        exfalso
        exact hwt (by linarith)
  case isFalse h40 =>
    have hlt : (s.requestTimes.filter
        (fun u => decide (s.now - RATE_LIMIT_WINDOW < u))).length < REQUEST_LIMIT := by
      omega
    refine ⟨?_, ?_, ?_⟩
    · show WindowOK (s.history ++ [s.now])
      refine windowOK_append _ _ ?_ hw
      have e1 : countGt s.history (s.now - RATE_LIMIT_WINDOW)
          = countGt s.requestTimes (s.now - RATE_LIMIT_WINDOW) := hfr _ le_rfl
      have e2 : countGt s.requestTimes (s.now - RATE_LIMIT_WINDOW) = (s.requestTimes.filter
          (fun u => decide (s.now - RATE_LIMIT_WINDOW < u))).length := rfl
      omega
    · intro c hc
      simp only at hc
      show countGt (s.history ++ [s.now]) c = countGt ((s.requestTimes.filter
        (fun u => decide (s.now - RATE_LIMIT_WINDOW < u))) ++ [s.now]) c
      rw [countGt_append_singleton, countGt_append_singleton]
      have e1 : countGt s.history c = countGt s.requestTimes c := hfr c hc
      have e2 : countGt (s.requestTimes.filter
          (fun u => decide (s.now - RATE_LIMIT_WINDOW < u))) c = countGt s.requestTimes c :=
        countGt_filter_of_le _ _ _ hc
      omega
    · show ((s.requestTimes.filter
        (fun u => decide (s.now - RATE_LIMIT_WINDOW < u))) ++ [s.now]).length ≤ REQUEST_LIMIT
      rw [List.length_append]
      simp only [List.length_cons, List.length_nil]
      omega

/-- The limiter invariant along any run of nonnegatively spaced calls. -/
theorem limInv_foldl : ∀ (deltas : List ℚ), (∀ δ ∈ deltas, 0 ≤ δ) →
    ∀ s : ClientState, LimInv s → LimInv (deltas.foldl limiterStep s) := by
  intro deltas
  induction deltas with
  | nil => exact fun _ s hs => hs
  | cons d t ih =>
    intro h s hs
    simp only [List.foldl_cons]
    exact ih (fun δ hδ => h δ (List.mem_cons_of_mem _ hδ)) _
      (limInv_wait _ (limInv_advance s d (h d (List.mem_cons_self _ _)) hs))

/-- A fresh client satisfies the limiter invariant. -/
theorem limInv_init (t0 : ℚ) : LimInv (initClientState t0) := by
  refine ⟨fun t => ?_, fun c _ => rfl, ?_⟩
  · show countWindow [] t ≤ REQUEST_LIMIT
    simp [countWindow, REQUEST_LIMIT]
  · show ([] : List ℚ).length ≤ REQUEST_LIMIT
    simp [REQUEST_LIMIT]

/-- C2 (amended): on the synchronous path, for every sequence of
nonnegatively spaced calls, no trailing `RATE_LIMIT_WINDOW`-second window ever
holds more than `REQUEST_LIMIT` recorded timestamps — the limiter only sleeps,
it never errors; the asynchronous path, however, never consults or updates the
sliding window: it records no timestamps at all (it is gated only by a
10-permit concurrency semaphore). -/
theorem c2_sync_window_async_unlimited :
    (∀ (t0 : ℚ) (deltas : List ℚ) (t : ℚ), (∀ δ ∈ deltas, 0 ≤ δ) →
        countWindow (runLimiter t0 deltas).history t ≤ REQUEST_LIMIT) ∧
    (∀ (st : ClientState) (title : PyArg) (year : Option ℤ)
        (out : HttpOutcome SearchResponse) (dur : ℚ),
        (searchMovieAsync st title year out dur).2.1.requestTimes = st.requestTimes ∧
        (searchMovieAsync st title year out dur).2.1.history = st.history) := by
  constructor
  · intro t0 deltas t h
    exact (limInv_foldl deltas h (initClientState t0) (limInv_init t0)).1 t
  · intro st title year out dur
    simp only [searchMovieAsync]
    constructor <;>
      · repeat' split
        all_goals rfl

/-- C2 (witness): the window bound instantiated on a concrete two-call run,
and the async no-write fact instantiated on a concrete miss. -/
theorem c2_witness :
    countWindow (runLimiter 0 [1, 1]).history 5 ≤ REQUEST_LIMIT ∧
    (searchMovieAsync (initClientState 0) (PyArg.str kX2) none
        HttpOutcome.notFound 1).2.1.requestTimes = (initClientState 0).requestTimes := by
  constructor
  · exact c2_sync_window_async_unlimited.1 0 [1, 1] 5 (by norm_num)
  · exact (c2_sync_window_async_unlimited.2 (initClientState 0) (PyArg.str kX2) none
      HttpOutcome.notFound 1).1

/-- One async search that misses the cache and receives a 404: one provider
call at the current instant, the clock advances by the call duration, and
nothing else changes. -/
theorem asyncMissStep (rts hist : List ℚ) (t0 dur : ℚ) :
    searchMovieAsync ⟨[], rts, hist, 10, t0⟩ (PyArg.str kX2) none HttpOutcome.notFound dur =
      (none, ⟨[], rts, hist, 10, t0 + dur⟩, [t0]) := rfl

/-- A burst of `n` identical uncacheable async searches issues one provider
call every `dur` seconds with no rate-limiter delay at all. -/
theorem asyncRun_times (n : ℕ) : ∀ (t0 dur : ℚ) (acc rts hist : List ℚ),
    (List.replicate n ((PyArg.str kX2, (none : Option ℤ),
        (HttpOutcome.notFound : HttpOutcome SearchResponse)))).foldl
      (fun acc c =>
        let r := searchMovieAsync acc.1 c.1 c.2.1 c.2.2 dur
        (r.2.1, acc.2 ++ r.2.2))
      (⟨[], rts, hist, 10, t0⟩, acc) =
    (⟨[], rts, hist, 10, t0 + n * dur⟩,
     acc ++ (List.range n).map (fun k : ℕ => t0 + (k : ℚ) * dur)) := by
  induction n with
  | zero =>
    intro t0 dur acc rts hist
    simp
  | succ n ih =>
    intro t0 dur acc rts hist
    rw [List.replicate_succ, List.foldl_cons]
    show (List.replicate n ((PyArg.str kX2, (none : Option ℤ),
        (HttpOutcome.notFound : HttpOutcome SearchResponse)))).foldl
      (fun acc c =>
        let r := searchMovieAsync acc.1 c.1 c.2.1 c.2.2 dur
        (r.2.1, acc.2 ++ r.2.2))
      (⟨[], rts, hist, 10, t0 + dur⟩, acc ++ [t0]) = _
    rw [ih (t0 + dur) dur (acc ++ [t0]) rts hist]
    have hnow : t0 + dur + (n : ℚ) * dur = t0 + ((n + 1 : ℕ) : ℚ) * dur := by
      push_cast
      ring
    have hmap : (List.range n).map (fun k : ℕ => t0 + dur + (k : ℚ) * dur) =
        (List.range n).map ((fun k : ℕ => t0 + (k : ℚ) * dur) ∘ Nat.succ) := by
      refine List.map_congr_left ?_
      intro a _
      simp only [Function.comp]
      push_cast
      ring
    rw [hnow, hmap, List.append_assoc]
    rw [show (List.range (n + 1)).map (fun k : ℕ => t0 + (k : ℚ) * dur) =
        (t0 + ((0 : ℕ) : ℚ) * dur) ::
          (List.range n).map ((fun k : ℕ => t0 + (k : ℚ) * dur) ∘ Nat.succ) from by
      rw [List.range_succ_eq_map, List.map_cons, List.map_map]]
    norm_num

/-- C2 (counterexample): forty-one async searches, each taking a fifth of a
second, all complete within a single trailing ten-second window — the
asynchronous path enforces no forty-per-window bound. -/
theorem c2_counterexample : ¬ claimC2 := by
  intro h
  have h2 := h.2 0 callsC2 (1 / 5) 8 (by norm_num)
  have hrun : (asyncSearchRun (initClientState 0) callsC2 (1 / 5)).2 =
      (List.range 41).map (fun k : ℕ => (0 : ℚ) + (k : ℚ) * (1 / 5)) := by
    have := asyncRun_times 41 0 (1 / 5) [] [] []
    unfold asyncSearchRun
    rw [show (initClientState 0, ([] : List ℚ)) =
      ((⟨[], [], [], 10, 0⟩ : ClientState), ([] : List ℚ)) from rfl]
    rw [show callsC2 = List.replicate 41 ((PyArg.str kX2, (none : Option ℤ),
      (HttpOutcome.notFound : HttpOutcome SearchResponse))) from rfl]
    rw [this]
    simp
  have hcw : countWindow
      ((List.range 41).map (fun k : ℕ => (0 : ℚ) + (k : ℚ) * (1 / 5))) 8 = 41 := by
    unfold countWindow
    rw [List.filter_eq_self.mpr ?_]
    · simp
    · intro x hx
      obtain ⟨k, hk, rfl⟩ := List.mem_map.mp hx
      have hk41 : k < 41 := List.mem_range.mp hk
      have hk' : (k : ℚ) ≤ 40 := by exact_mod_cast Nat.le_of_lt_succ hk41
      have hk0 : (0 : ℚ) ≤ (k : ℚ) := by positivity
      have hRW : RATE_LIMIT_WINDOW = (10 : ℚ) := rfl
      simp only [Bool.and_eq_true, decide_eq_true_eq]
      constructor
      · rw [hRW]
        nlinarith
      · nlinarith
  rw [hrun, hcw] at h2
  have hRL : REQUEST_LIMIT = 40 := rfl
  omega

end Letterboxd
